import Mathlib

/-!
Verification of the training core of `notebooks/QML_utils.py`
(functions `NLL`, `gradient`, `training`, and the sampling entry point
`measure_result`) against its natural-language specification.

Shallow embedding conventions:

* Python floats are modelled by `ℝ`; `np.log2` by `Real.logb 2`.
* A Qiskit counts dictionary (`result.get_counts()`) is a partial map
  `String → Option ℕ`; Python's `dict.get` returning `None` is `Option.none`.
* The external sampler (Qiskit transpile/assemble/run inside
  `measure_result`) is an oracle `Simulator`: a response function fed a
  fresh call index on every invocation (so distinct calls are independent
  draws), together with a log of the calls made.  The call log is the
  observable through which "how many times and with which arguments was
  the sampler queried" is stated.
* NumPy's process-wide random generator is an explicit `RNG` state: two
  fixed streams plus a position; `np.random.uniform(size=n)` reads `n`
  fresh positions of the real stream, `np.random.choice(N, size=k)` reads
  `k` fresh positions of the nat stream reduced mod `N`.
* Python exceptions are `Except PyError`; the value-level model `NLL`
  uses Lean's total real division (junk at 0) while `NLLexc` tracks the
  raising behaviour of the same loop (`ZeroDivisionError` exactly where
  Python's `/` raises; `np.log2` never raises).
* `training` reads the free global name `simulator`, which the module
  never binds; the module-level binding is passed explicitly as an
  `Option Simulator`, `none` meaning the name is unbound, in which case
  the lookup raises `NameError`.
-/

namespace QMLUtils

/-- A Qiskit counts dictionary: bitstring keys to occurrence counts;
`counts.get(i)` is `counts i`, absent keys give `none`. -/
def Counts : Type := String → Option ℕ

/-- One invocation of `measure_result`: the bound parameter vector and the
number of shots requested from the backend. -/
structure SamplerCall where
  params : List ℝ
  shots : ℕ

/-- The external Qiskit backend behind `measure_result`, as an oracle.
`respond` receives the index of the call (the length of the log so far),
so that each invocation is a fresh, independent sample; `calls` logs every
invocation made through `measure_result`. -/
structure Simulator where
  respond : ℕ → List ℝ → ℕ → Counts
  calls : List SamplerCall

/-- The parameterized circuit `BBQC`, of which the training core only uses
`num_parameters` (the size argument of `np.random.uniform`). -/
structure Circuit where
  num_parameters : ℕ

/-- NumPy's global random generator as explicit state: a stream of
`np.random.uniform` draws (each in `[0,1)` per NumPy's contract), a stream
of raw integer draws backing `np.random.choice`, and the current position. -/
structure RNG where
  realStream : ℕ → ℝ
  natStream : ℕ → ℕ
  pos : ℕ

/-- `np.random.uniform(size=n)`: `n` fresh draws from the real stream,
advancing the generator position by `n`. -/
def RNG.uniformN (g : RNG) (n : ℕ) : List ℝ × RNG :=
  ((List.range n).map (fun i => g.realStream (g.pos + i)),
   ⟨g.realStream, g.natStream, g.pos + n⟩)

/-- `np.random.choice(bound, size=size)`: `size` fresh independent draws,
each reduced into `[0, bound)`, advancing the position by `size`
(sampling with replacement: every entry is its own fresh draw). -/
def RNG.choiceN (g : RNG) (bound : ℕ) (size : ℕ) : List ℕ × RNG :=
  ((List.range size).map (fun i => g.natStream (g.pos + i) % bound),
   ⟨g.realStream, g.natStream, g.pos + size⟩)

/-- Python exceptions reachable in the embedded fragment. -/
inductive PyError where
  | ZeroDivisionError
  | NameError
deriving DecidableEq

/-- Componentwise vector addition (NumPy `x + epsilon`). -/
def vadd (x y : List ℝ) : List ℝ := List.zipWith (fun a b => a + b) x y

/-- Componentwise vector subtraction (NumPy `x - epsilon`). -/
def vsub (x y : List ℝ) : List ℝ := List.zipWith (fun a b => a - b) x y

/-- Scalar times vector (NumPy `alpha * dfdx`). -/
def smul (a : ℝ) (x : List ℝ) : List ℝ := x.map (fun v => a * v)

noncomputable section

/-- `np.log2` on the reals (value-level model; junk value at `x ≤ 0`). -/
def log2 (x : ℝ) : ℝ := Real.logb 2 x

/-- `measure_result(BBQC, simulator, x, n_shots)`: transpile/assemble/run
are external, so the call is an oracle query.  The response is drawn at
the current call index (a fresh index per call) and the call is logged. -/
def measure_result (BBQC : Circuit) (simulator : Simulator) (x : List ℝ)
    (n_shots : ℕ) : Counts × Simulator :=
  (simulator.respond simulator.calls.length x n_shots,
   ⟨simulator.respond, simulator.calls ++ [⟨x, n_shots⟩]⟩)

/-- Loop body of `NLL`: `counts.get(i)` is `None` ↦ add `2*np.log2(n_shots)`,
otherwise add `-np.log2(temp/n_shots)`. -/
def NLLstep (counts : Counts) (n_shots : ℕ) (acc : ℝ) (i : String) : ℝ :=
  match counts i with
  | none => acc + 2 * log2 n_shots
  | some temp => acc + -(log2 ((temp : ℝ) / (n_shots : ℝ)))

/-- `NLL(counts, databatch, n_shots=1000)` (value level): the accumulator
loop over `databatch` followed by division by `len(databatch)`. -/
def NLL (counts : Counts) (databatch : List String) (n_shots : ℕ) : ℝ :=
  (databatch.foldl (NLLstep counts n_shots) 0) / databatch.length

/-- Modelled from the spec: the per-bitstring contribution of §4.1 —
`-log2(c / shot_count)` when `b` is present with occurrence `c`, and the
fixed penalty `2 * log2(shot_count)` when `b` is absent. -/
def contrib (counts : Counts) (shot_count : ℕ) (b : String) : ℝ :=
  match counts b with
  | none => 2 * log2 shot_count
  | some c => -(log2 ((c : ℝ) / (shot_count : ℝ)))

/-- Exception-level model of the `NLL` loop: Python's `temp/n_shots` raises
`ZeroDivisionError` when `n_shots == 0` (both operands are plain ints);
`np.log2` never raises (it returns `-inf`/`nan` on nonpositive input), so
the absent branch is total.  `n_shots` is `ℤ` so that nonpositive shot
counts are representable. -/
def NLLloop (counts : Counts) (n_shots : ℤ) :
    List String → ℝ → Except PyError ℝ
  | [], acc => .ok acc
  | i :: rest, acc =>
    match counts i with
    | none => NLLloop counts n_shots rest (acc + 2 * log2 (n_shots : ℝ))
    | some temp =>
      if n_shots = 0 then .error PyError.ZeroDivisionError
      else NLLloop counts n_shots rest
        (acc + -(log2 ((temp : ℝ) / ((n_shots : ℤ) : ℝ))))

/-- Exception-level model of `NLL`: run the loop, then perform the final
`NLL/len(databatch)`, which raises `ZeroDivisionError` on an empty batch. -/
def NLLexc (counts : Counts) (databatch : List String) (n_shots : ℤ) :
    Except PyError ℝ :=
  match NLLloop counts n_shots databatch 0 with
  | .error e => .error e
  | .ok s =>
    if databatch.length = 0 then .error PyError.ZeroDivisionError
    else .ok (s / (databatch.length : ℝ))

/-- `np.log2` at IEEE float level restricted to nonnegative arguments:
`np.log2 0 = -inf`, finite positive arguments give the real logarithm.
Used only to express the infinite per-term value of the present-with-zero
branch. -/
def np_log2E (x : ℝ) : EReal := if x = 0 then ⊥ else ((Real.logb 2 x : ℝ) : EReal)

/-- Per-bitstring term of the `NLL` loop at IEEE float level: the branch
structure of `NLLstep` with `np.log2` mapped through `np_log2E`. -/
def NLLtermE (counts : Counts) (n_shots : ℕ) (i : String) : EReal :=
  match counts i with
  | none => ((2 : ℝ) : EReal) * np_log2E (n_shots : ℝ)
  | some temp => -(np_log2E ((temp : ℝ) / (n_shots : ℝ)))

/-- The perturbation drawn by `gradient`:
`epsilon = eps*2*np.pi*np.random.uniform(size=p)` — one fresh uniform draw
per parameter, each scaled by `eps * 2π`. -/
def perturb (rng : RNG) (p : ℕ) (eps : ℝ) : List ℝ :=
  ((rng.uniformN p).1).map (fun v => eps * 2 * Real.pi * v)

/-- `gradient(x, databatch, BBQC, simulator, n_shots=1000, eps=0.2)`.
Faithful to the source: the three `measure_result` queries pass `n_shots`
through, but the three `NLL` evaluations are written `NLL(counts, databatch)`
in the source, so they use `NLL`'s own default `n_shots=1000`, embedded
here as the explicit argument `1000`.  Returns the pair the source returns
plus the threaded simulator and generator states. -/
def gradient (x : List ℝ) (databatch : List String) (BBQC : Circuit)
    (simulator : Simulator) (rng : RNG) (n_shots : ℕ) (eps : ℝ) :
    (List ℝ × ℝ) × Simulator × RNG :=
  let epsilon := perturb rng BBQC.num_parameters eps
  let rng1 := (rng.uniformN BBQC.num_parameters).2
  let mplus := measure_result BBQC simulator (vadd x epsilon) n_shots
  let mminus := measure_result BBQC mplus.2 (vsub x epsilon) n_shots
  let mx := measure_result BBQC mminus.2 x n_shots
  let NLL_plus := NLL mplus.1 databatch 1000
  let NLL_minus := NLL mminus.1 databatch 1000
  let FD_dfdx := epsilon.map (fun e => (NLL_plus - NLL_minus) / 2 * e)
  let NLL_x := NLL mx.1 databatch 1000
  ((FD_dfdx, NLL_x), mx.2, rng1)

/-- Machine state of one `training` iteration: the parameter vector, the
loss trace, the (bound) global simulator, and the random generator. -/
structure TState where
  x : List ℝ
  loss_track : List ℝ
  sim : Simulator
  rng : RNG

/-- One iteration of the `training` loop body, for the case in which the
global name `simulator` is bound: draw `batchsize` indices with
`np.random.choice(N, size=batchsize)`, index `traindata` with them, call
`gradient` (with its declared defaults `n_shots=1000`, `eps=0.2`, as the
source call `gradient(x, databatch, BBQC, simulator)` does), append the
returned loss, and update `x = x - alpha * dfdx`. -/
def trainStep (traindata : List String) (BBQC : Circuit) (batchsize : ℕ)
    (alpha : ℝ) (s : TState) : TState :=
  let ic := RNG.choiceN s.rng traindata.length batchsize
  let databatch := ic.1.map (fun j => traindata.getD j "")
  let g := gradient s.x databatch BBQC s.sim ic.2 1000 0.2
  ⟨vsub s.x (smul alpha g.1.1), s.loss_track ++ [g.1.2], g.2.1, g.2.2⟩

/-- The `for i in range(n_steps)` loop of `training`.  Each iteration draws
the batch indices, forms `databatch`, then evaluates the free global name
`simulator`: if the name is unbound the lookup raises `NameError`,
otherwise the iteration proceeds as the source body does. -/
def trainingLoop (traindata : List String) (BBQC : Circuit) (batchsize : ℕ)
    (alpha : ℝ) :
    ℕ → List ℝ → List ℝ → Option Simulator → RNG →
      Except PyError (List ℝ × List ℝ × Option Simulator × RNG)
  | 0, x, loss_track, glob, rng => .ok (x, loss_track, glob, rng)
  | n + 1, x, loss_track, glob, rng =>
    let ic := RNG.choiceN rng traindata.length batchsize
    let databatch := ic.1.map (fun j => traindata.getD j "")
    match glob with
    | none => .error PyError.NameError
    | some sim =>
      let g := gradient x databatch BBQC sim ic.2 1000 0.2
      trainingLoop traindata BBQC batchsize alpha n
        (vsub x (smul alpha g.1.1)) (loss_track ++ [g.1.2]) (some g.2.1) g.2.2

/-- `training(initial_x, traindata, BBQC, similator, batchsize=8,
n_steps=50, loss_track=[], alpha=0.01)`.  The `similator` parameter is
the source's (misspelled and unused) fourth positional argument; the body
instead reads the free global name `simulator`, passed here explicitly as
`globalSimulator` (`none` = unbound, as in the module as shipped). -/
def training (initial_x : List ℝ) (traindata : List String) (BBQC : Circuit)
    (similator : Simulator) (batchsize : ℕ) (n_steps : ℕ)
    (loss_track : List ℝ) (alpha : ℝ)
    (globalSimulator : Option Simulator) (rng : RNG) :
    Except PyError (List ℝ × List ℝ × Option Simulator × RNG) :=
  trainingLoop traindata BBQC batchsize alpha n_steps
    initial_x loss_track globalSimulator rng

/-- A call of `training` that omits the `loss_track` argument: Python
evaluates the default `[]` once at `def` time, so all such calls share one
mutable list object (`cell`).  The call runs `training` on the current
contents of the cell; on normal return the cell aliases the returned
(appended-to) list, on an exception no append has happened (the only
reachable exception, `NameError`, fires before the first append). -/
def trainingDefaultCall (cell : List ℝ) (initial_x : List ℝ)
    (traindata : List String) (BBQC : Circuit) (similator : Simulator)
    (batchsize : ℕ) (n_steps : ℕ) (alpha : ℝ)
    (globalSimulator : Option Simulator) (rng : RNG) :
    Except PyError (List ℝ × List ℝ × Option Simulator × RNG) × List ℝ :=
  match training initial_x traindata BBQC similator batchsize n_steps
      cell alpha globalSimulator rng with
  | .ok r => (.ok r, r.2.1)
  | .error e => (.error e, cell)

/-- The `NLL` loop body adds exactly the spec's per-bitstring contribution. -/
lemma NLLstep_eq (counts : Counts) (n : ℕ) (a : ℝ) (i : String) :
    NLLstep counts n a i = a + contrib counts n i := by
  cases h : counts i <;> simp [NLLstep, contrib, h]

/-- The `NLL` accumulator loop computes the sum of the contributions. -/
lemma foldl_NLLstep (counts : Counts) (n : ℕ) :
    ∀ (l : List String) (a : ℝ),
      l.foldl (NLLstep counts n) a = a + (l.map (contrib counts n)).sum := by
  intro l
  induction l with
  | nil => intro a; simp
  | cons x xs ih =>
    intro a
    rw [List.foldl_cons, NLLstep_eq, ih, List.map_cons, List.sum_cons]
    ring

/-- C1: for a non-empty databatch and a positive shot count, `NLL` returns
the mean over the batch of the per-bitstring contributions: a bitstring
present in `counts` with occurrence `c` contributes `-log2(c/shot_count)`,
an absent one contributes `2*log2(shot_count)`.  (Non-emptiness and
positivity are expressed by the shapes `b :: rest` and `n + 1`.) -/
theorem NLL_mean_of_contrib (counts : Counts) (b : String) (rest : List String)
    (n : ℕ) :
    NLL counts (b :: rest) (n + 1) =
      (((b :: rest).map (contrib counts (n + 1))).sum)
        / (((b :: rest).length : ℕ) : ℝ) := by
  rw [NLL, foldl_NLLstep, zero_add]

/-- C2: the gradient vector returned by `gradient` is the scalar central
difference `(NLL_plus - NLL_minus)/2` multiplied componentwise by the whole
perturbation vector (no division by its squared norm), where `NLL_plus`
and `NLL_minus` are the losses on the samples taken at `x+ε` and `x-ε`
(first and second oracle calls); the second returned value is the loss at
the unperturbed `x`, computed from the third, independent sample. -/
theorem gradient_formula (x : List ℝ) (db : List String) (B : Circuit)
    (sim : Simulator) (rng : RNG) (n : ℕ) (eps : ℝ) :
    (gradient x db B sim rng n eps).1.1 =
      (perturb rng B.num_parameters eps).map (fun e =>
        (NLL (sim.respond sim.calls.length
            (vadd x (perturb rng B.num_parameters eps)) n) db 1000
          - NLL (sim.respond (sim.calls.length + 1)
            (vsub x (perturb rng B.num_parameters eps)) n) db 1000)
          / 2 * e)
    ∧ (gradient x db B sim rng n eps).1.2 =
        NLL (sim.respond (sim.calls.length + 2) x n) db 1000 := by
  constructor <;> simp [gradient, measure_result]

/-- C3: every invocation of `gradient` queries the sampler exactly three
times — the call log gains exactly the three entries `x+ε`, `x-ε`, `x`,
each requesting the same `n_shots` — and the oracle's response function is
untouched, each of the three responses being drawn at a distinct fresh call
index (independent sampling noise). -/
theorem gradient_three_sampler_calls (x : List ℝ) (db : List String)
    (B : Circuit) (sim : Simulator) (rng : RNG) (n : ℕ) (eps : ℝ) :
    ((gradient x db B sim rng n eps).2.1).calls =
      sim.calls ++ [⟨vadd x (perturb rng B.num_parameters eps), n⟩,
                    ⟨vsub x (perturb rng B.num_parameters eps), n⟩,
                    ⟨x, n⟩]
    ∧ ((gradient x db B sim rng n eps).2.1).calls.length =
        sim.calls.length + 3
    ∧ ((gradient x db B sim rng n eps).2.1).respond = sim.respond := by
  refine ⟨?_, ?_, ?_⟩ <;> simp [gradient, measure_result]

/-- C5: on a circuit with `p` trainable parameters the perturbation vector
has length `p`; its `i`-th component is the `i`-th fresh uniform draw of
the call, scaled by `eps * 2π`; one single vector is drawn per call (the
generator advances by exactly `p` positions); and when the draws obey
NumPy's `[0,1)` contract and `eps > 0`, every component lies in
`[0, eps*2π)`. -/
theorem gradient_perturbation (x : List ℝ) (db : List String) (p : ℕ)
    (sim : Simulator) (rng : RNG) (n : ℕ) (eps : ℝ)
    (hu : ∀ i, 0 ≤ rng.realStream i ∧ rng.realStream i < 1)
    (he : 0 < eps) :
    (perturb rng p eps).length = p
    ∧ (∀ i, i < p → (perturb rng p eps).getD i 0 =
        eps * 2 * Real.pi * rng.realStream (rng.pos + i))
    ∧ ((gradient x db ⟨p⟩ sim rng n eps).2.2).pos = rng.pos + p
    ∧ (∀ i, i < p → 0 ≤ (perturb rng p eps).getD i 0
        ∧ (perturb rng p eps).getD i 0 < eps * 2 * Real.pi) := by
  have hcomp : ∀ i, i < p → (perturb rng p eps).getD i 0 =
      eps * 2 * Real.pi * rng.realStream (rng.pos + i) := by
    intro i hi
    simp [perturb, RNG.uniformN, List.getD, List.getElem?_map,
      List.getElem?_range, hi]
  have hpos : (0 : ℝ) < eps * 2 * Real.pi := by positivity
  refine ⟨by simp [perturb, RNG.uniformN], hcomp,
    by simp [gradient, RNG.uniformN], ?_⟩
  intro i hi
  rw [hcomp i hi]
  constructor
  · exact mul_nonneg hpos.le (hu (rng.pos + i)).1
  · calc eps * 2 * Real.pi * rng.realStream (rng.pos + i)
        < eps * 2 * Real.pi * 1 :=
          (mul_lt_mul_left hpos).mpr (hu (rng.pos + i)).2
    _ = eps * 2 * Real.pi := mul_one _

/-- Witness for C5 at a concrete input: generator with the all-zero
streams, `p = 2`, `eps = 1/2`. -/
theorem gradient_perturbation_witness :
    (perturb ⟨fun _ => 0, fun _ => 0, 0⟩ 2 (1 / 2)).length = 2
    ∧ (perturb ⟨fun _ => 0, fun _ => 0, 0⟩ 2 (1 / 2)).getD 1 0 =
        (1 / 2 : ℝ) * 2 * Real.pi * 0
    ∧ ((gradient [] [] ⟨2⟩ ⟨fun _ _ _ => fun _ => none, []⟩
        ⟨fun _ => 0, fun _ => 0, 0⟩ 7 (1 / 2)).2.2).pos = 0 + 2
    ∧ (0 ≤ (perturb ⟨fun _ => 0, fun _ => 0, 0⟩ 2 (1 / 2)).getD 1 0
        ∧ (perturb ⟨fun _ => 0, fun _ => 0, 0⟩ 2 (1 / 2)).getD 1 0 <
            (1 / 2 : ℝ) * 2 * Real.pi) := by
  have h := gradient_perturbation [] [] 2 ⟨fun _ _ _ => fun _ => none, []⟩
    ⟨fun _ => 0, fun _ => 0, 0⟩ 7 (1 / 2)
    (by intro i; exact ⟨le_refl 0, by norm_num⟩) (by norm_num)
  exact ⟨h.1, h.2.1 1 (by norm_num), h.2.2.1, h.2.2.2 1 (by norm_num)⟩

/-- C8: `gradient` forwards its `n_shots` argument to the three sampler
queries, but the three losses are computed by `NLL(counts, databatch)`
with `NLL`'s default shot count `1000`; at a concrete input with
`n_shots = 2` the returned loss therefore differs from
`NLL(counts, databatch, n_shots)`, the `evaluate` contract of the spec. -/
theorem gradient_shot_count_mismatch (x : List ℝ) (db : List String)
    (B : Circuit) (sim : Simulator) (rng : RNG) (n : ℕ) (eps : ℝ) :
    ((gradient x db B sim rng n eps).2.1).calls.drop sim.calls.length =
      [⟨vadd x (perturb rng B.num_parameters eps), n⟩,
       ⟨vsub x (perturb rng B.num_parameters eps), n⟩, ⟨x, n⟩]
    ∧ (gradient x db B sim rng n eps).1.2 =
        NLL (sim.respond (sim.calls.length + 2) x n) db 1000
    ∧ (gradient [0] ["0"] ⟨1⟩ ⟨fun _ _ _ => fun _ => some 500, []⟩
          ⟨fun _ => 0, fun _ => 0, 0⟩ 2 (1 / 5)).1.2 ≠
        NLL (fun _ => some 500) ["0"] 2 := by
  refine ⟨?_, ?_, ?_⟩
  · simp [gradient, measure_result, List.drop_left]
  · simp [gradient, measure_result]
  · have hL : (gradient [0] ["0"] ⟨1⟩ ⟨fun _ _ _ => fun _ => some 500, []⟩
        ⟨fun _ => 0, fun _ => 0, 0⟩ 2 (1 / 5)).1.2 = 1 := by
      simp [gradient, measure_result, NLL, NLLstep, log2]
      rw [show (500 : ℝ) / 1000 = (2 : ℝ)⁻¹ by norm_num,
        Real.logb_inv, Real.logb_self_eq_one (by norm_num)]
      norm_num
    have hR : NLL (fun _ => some 500) ["0"] 2 = -(Real.logb 2 250) := by
      simp [NLL, NLLstep, log2]
      norm_num
    have h250 : (0 : ℝ) < Real.logb 2 250 :=
      Real.logb_pos (by norm_num) (by norm_num)
    rw [hL, hR]
    intro hcontr
    linarith [hcontr]

/-- When every bitstring of the batch is absent from `counts`, the `NLL`
loop never divides and therefore never raises. -/
lemma NLLloop_absent (counts : Counts) (n : ℤ) :
    ∀ (db : List String) (a : ℝ), (∀ b ∈ db, counts b = none) →
      ∃ s, NLLloop counts n db a = .ok s := by
  intro db
  induction db with
  | nil => intro a _; exact ⟨a, rfl⟩
  | cons x xs ih =>
    intro a habs
    have hx : counts x = none := habs x (List.mem_cons_self x xs)
    have hxs : ∀ b ∈ xs, counts b = none := fun b hb =>
      habs b (List.mem_cons_of_mem x hb)
    obtain ⟨s, hs⟩ := ih (a + 2 * log2 (n : ℝ)) hxs
    exact ⟨s, by rw [NLLloop, hx]; exact hs⟩

/-- Counterexample to C6: a call of `NLL` with `shot_count = 0 ≤ 0` (and
another with `shot_count = -3 ≤ 0`) that does not fail at all — no
`InvalidInput` (or any other) condition is raised. -/
theorem NLL_nonpositive_shots_no_failure :
    (NLLexc (fun _ => none) ["00"] 0).isOk = true
    ∧ (NLLexc (fun _ => none) ["00"] (-3)).isOk = true := by
  constructor <;> rfl

/-- C6 (amended): `NLL` performs no explicit input validation.  A call on
an empty databatch fails synchronously with an (unguarded)
`ZeroDivisionError` from the final `NLL/len(databatch)`; a non-positive
shot count by itself causes no failure — with every batch bitstring absent
from `counts` the call returns normally — and with `shot_count = 0` the
call fails with `ZeroDivisionError` exactly when it reaches a bitstring
present in `counts` (the `temp/n_shots` division). -/
theorem NLLexc_error_behavior :
    (∀ (counts : Counts) (n : ℤ),
      NLLexc counts [] n = .error PyError.ZeroDivisionError)
    ∧ (∀ (counts : Counts) (db : List String) (n : ℤ),
        db ≠ [] → (∀ b ∈ db, counts b = none) →
        (NLLexc counts db n).isOk = true)
    ∧ (∀ (counts : Counts) (b : String) (db : List String) (c : ℕ),
        counts b = some c →
        NLLexc counts (b :: db) 0 = .error PyError.ZeroDivisionError) := by
  refine ⟨?_, ?_, ?_⟩
  · intro counts n
    rfl
  · intro counts db n hne habs
    obtain ⟨s, hs⟩ := NLLloop_absent counts n db 0 habs
    rw [NLLexc, hs]
    simp only [List.length_eq_zero.not.mpr hne, if_false, ite_false,
      if_neg (List.length_eq_zero.not.mpr hne)]
    rfl
  · intro counts b db c hc
    rw [NLLexc, NLLloop, hc]
    rfl

/-- Witness for C6 (amended) at concrete inputs. -/
theorem NLLexc_error_behavior_witness :
    NLLexc (fun _ => none) [] 5 = .error PyError.ZeroDivisionError
    ∧ (NLLexc (fun _ => none) ["01"] (-2)).isOk = true
    ∧ NLLexc (fun _ => some 7) ["0"] 0 = .error PyError.ZeroDivisionError := by
  have h := NLLexc_error_behavior
  exact ⟨h.1 (fun _ => none) 5,
    h.2.1 (fun _ => none) ["01"] (-2) (by simp) (by intro b _; rfl),
    h.2.2 (fun _ => some 7) "0" [] 7 rfl⟩

/-- C10: a bitstring present in `counts` with occurrence exactly `0` takes
the present branch of the `NLL` loop — its contribution is the expression
`-log2(0/n_shots)`, which at IEEE float level is `+∞` — while the fixed
ceiling `2*log2(shot_count)` is applied only to absent keys and is a
finite, different value. -/
theorem NLL_zero_count_present_branch (counts : Counts) (b : String) (n : ℕ)
    (hc : counts b = some 0) (hn : 0 < n) :
    (∀ a : ℝ, NLLstep counts n a b = a + -(log2 ((0 : ℝ) / (n : ℝ))))
    ∧ NLLtermE counts n b = ⊤
    ∧ (∀ counts2 : Counts, counts2 b = none →
        NLLtermE counts2 n b = ((2 * Real.logb 2 (n : ℝ) : ℝ) : EReal)
        ∧ NLLtermE counts2 n b ≠ NLLtermE counts n b) := by
  have hne : ((n : ℕ) : ℝ) ≠ 0 := by positivity
  have htop : NLLtermE counts n b = ⊤ := by
    simp [NLLtermE, hc, np_log2E, zero_div]
  refine ⟨?_, htop, ?_⟩
  · intro a
    simp [NLLstep, hc, log2]
  · intro counts2 h2
    have hfin : NLLtermE counts2 n b = ((2 * Real.logb 2 (n : ℝ) : ℝ) : EReal) := by
      rw [NLLtermE, h2, np_log2E, if_neg hne, ← EReal.coe_mul]
    refine ⟨hfin, ?_⟩
    rw [hfin, htop]
    exact EReal.coe_ne_top _

/-- Witness for C10 at a concrete input: `counts` maps every key to
occurrence `0`, shot count `1000`. -/
theorem NLL_zero_count_present_branch_witness :
    NLLstep (fun _ => some 0) 1000 3 "01" =
      3 + -(log2 ((0 : ℝ) / ((1000 : ℕ) : ℝ)))
    ∧ NLLtermE (fun _ => some 0) 1000 "01" = ⊤
    ∧ NLLtermE (fun _ => none) 1000 "01" =
        ((2 * Real.logb 2 ((1000 : ℕ) : ℝ) : ℝ) : EReal)
    ∧ NLLtermE (fun _ => none) 1000 "01" ≠
        NLLtermE (fun _ => some 0) 1000 "01" := by
  have h := NLL_zero_count_present_branch (fun _ => some 0) "01" 1000 rfl
    (by norm_num)
  have h3 := h.2.2 (fun _ => none) rfl
  exact ⟨h.1 3, h.2.1, h3.1, h3.2⟩

/-- With the global `simulator` bound, the `training` loop is the `n`-fold
iteration of the single-step state transformer. -/
lemma trainingLoop_some (td : List String) (B : Circuit) (bs : ℕ) (al : ℝ) :
    ∀ (n : ℕ) (x t : List ℝ) (sim : Simulator) (rng : RNG),
      trainingLoop td B bs al n x t (some sim) rng =
        .ok (((trainStep td B bs al)^[n] ⟨x, t, sim, rng⟩).x,
          ((trainStep td B bs al)^[n] ⟨x, t, sim, rng⟩).loss_track,
          some ((trainStep td B bs al)^[n] ⟨x, t, sim, rng⟩).sim,
          ((trainStep td B bs al)^[n] ⟨x, t, sim, rng⟩).rng) := by
  intro n
  induction n with
  | zero => intro x t sim rng; rfl
  | succ n ih =>
    intro x t sim rng
    simp only [Function.iterate_succ_apply]
    exact ih _ _ _ _

/-- One training step never reads the loss trace: running it on a state
whose trace has a prefix prepended prepends the same prefix to the result
and changes nothing else. -/
lemma trainStep_loss_shift (td : List String) (B : Circuit) (bs : ℕ) (al : ℝ)
    (t : List ℝ) (s : TState) :
    trainStep td B bs al ⟨s.x, t ++ s.loss_track, s.sim, s.rng⟩ =
      ⟨(trainStep td B bs al s).x,
       t ++ (trainStep td B bs al s).loss_track,
       (trainStep td B bs al s).sim, (trainStep td B bs al s).rng⟩ := by
  cases s
  simp [trainStep, List.append_assoc]

/-- Iterated version of `trainStep_loss_shift`. -/
lemma iterate_loss_shift (td : List String) (B : Circuit) (bs : ℕ) (al : ℝ) :
    ∀ (n : ℕ) (t : List ℝ) (s : TState),
      (trainStep td B bs al)^[n] ⟨s.x, t ++ s.loss_track, s.sim, s.rng⟩ =
        ⟨((trainStep td B bs al)^[n] s).x,
         t ++ ((trainStep td B bs al)^[n] s).loss_track,
         ((trainStep td B bs al)^[n] s).sim,
         ((trainStep td B bs al)^[n] s).rng⟩ := by
  intro n
  induction n with
  | zero => intro t s; cases s; rfl
  | succ n ih =>
    intro t s
    rw [Function.iterate_succ_apply, trainStep_loss_shift,
      ih t (trainStep td B bs al s), ← Function.iterate_succ_apply]

/-- The loss trace after `n` steps is the starting trace followed by the
`n` freshly produced losses (which do not depend on the starting trace). -/
lemma iterate_trace_decomp (td : List String) (B : Circuit) (bs : ℕ) (al : ℝ)
    (n : ℕ) (x t : List ℝ) (sim : Simulator) (rng : RNG) :
    (trainStep td B bs al)^[n] ⟨x, t, sim, rng⟩ =
      ⟨((trainStep td B bs al)^[n] ⟨x, [], sim, rng⟩).x,
       t ++ ((trainStep td B bs al)^[n] ⟨x, [], sim, rng⟩).loss_track,
       ((trainStep td B bs al)^[n] ⟨x, [], sim, rng⟩).sim,
       ((trainStep td B bs al)^[n] ⟨x, [], sim, rng⟩).rng⟩ := by
  have h := iterate_loss_shift td B bs al n t ⟨x, [], sim, rng⟩
  rw [List.append_nil] at h
  exact h

/-- Each training step appends exactly one loss value. -/
lemma trainStep_loss_length (td : List String) (B : Circuit) (bs : ℕ)
    (al : ℝ) (s : TState) :
    (trainStep td B bs al s).loss_track.length = s.loss_track.length + 1 := by
  simp [trainStep]

/-- Each training step makes exactly three sampler calls. -/
lemma trainStep_calls_length (td : List String) (B : Circuit) (bs : ℕ)
    (al : ℝ) (s : TState) :
    (trainStep td B bs al s).sim.calls.length = s.sim.calls.length + 3 := by
  simp [trainStep, gradient, measure_result]

/-- After `n` steps the trace has grown by exactly `n` entries. -/
lemma iterate_loss_length (td : List String) (B : Circuit) (bs : ℕ) (al : ℝ) :
    ∀ (n : ℕ) (s : TState),
      ((trainStep td B bs al)^[n] s).loss_track.length =
        s.loss_track.length + n := by
  intro n
  induction n with
  | zero => intro s; rfl
  | succ n ih =>
    intro s
    rw [Function.iterate_succ_apply', trainStep_loss_length, ih]
    omega

/-- After `n` steps the sampler has been queried exactly `3 * n` more
times (three queries per `gradient` invocation, one invocation per step). -/
lemma iterate_calls_length (td : List String) (B : Circuit) (bs : ℕ) (al : ℝ) :
    ∀ (n : ℕ) (s : TState),
      ((trainStep td B bs al)^[n] s).sim.calls.length =
        s.sim.calls.length + 3 * n := by
  intro n
  induction n with
  | zero => intro s; rfl
  | succ n ih =>
    intro s
    rw [Function.iterate_succ_apply', trainStep_calls_length, ih]
    omega

/-- A no-trace-argument call with the global simulator bound returns
normally and leaves the shared default cell equal to the appended-to
returned list. -/
lemma trainingDefaultCall_some (cell x : List ℝ) (td : List String)
    (B : Circuit) (sml : Simulator) (bs n : ℕ) (al : ℝ) (sim : Simulator)
    (rng : RNG) :
    (trainingDefaultCall cell x td B sml bs n al (some sim) rng).2 =
      cell ++ ((trainStep td B bs al)^[n] ⟨x, [], sim, rng⟩).loss_track := by
  have htr : training x td B sml bs n cell al (some sim) rng =
      .ok (((trainStep td B bs al)^[n] ⟨x, cell, sim, rng⟩).x,
        ((trainStep td B bs al)^[n] ⟨x, cell, sim, rng⟩).loss_track,
        some ((trainStep td B bs al)^[n] ⟨x, cell, sim, rng⟩).sim,
        ((trainStep td B bs al)^[n] ⟨x, cell, sim, rng⟩).rng) :=
    trainingLoop_some td B bs al n x cell sim rng
  rw [trainingDefaultCall, htr]
  rw [iterate_trace_decomp]

/-- Counterexample to C4: with the module as shipped the global name
`simulator` is unbound, so a concrete `training` call with `n_steps = 1`
raises `NameError` — the Gradient Estimator is invoked 0 ≠ 1 times and no
loss trace of length `len(initial_trace) + n_steps` is returned. -/
theorem training_unbound_counterexample :
    training [0] ["0"] ⟨1⟩ ⟨fun _ _ _ => fun _ => none, []⟩ 8 1 []
        (1 / 100) none ⟨fun _ => 0, fun _ => 0, 0⟩ =
      .error PyError.NameError
    ∧ (training [0] ["0"] ⟨1⟩ ⟨fun _ _ _ => fun _ => none, []⟩ 8 1 []
        (1 / 100) none ⟨fun _ => 0, fun _ => 0, 0⟩).isOk = false := by
  constructor <;> rfl

/-- C4 (amended): provided the module-global name `simulator` is bound to
a sampler, `training` with step count `n_steps` returns normally the
`n_steps`-fold iteration of the per-step transformer (each iteration draws
`batchsize` indices with replacement — fresh independent draws, each in
`[0, N)` — forms the batch, invokes the Gradient Estimator once, appends
the returned loss, and updates `x = x - alpha * dfdx`); the returned trace
has length `len(initial_trace) + n_steps` and the sampler log shows the
`n_steps` Gradient-Estimator invocations as `3 * n_steps` queries. -/
theorem training_iterates (initial_x : List ℝ) (td : List String)
    (B : Circuit) (sml : Simulator) (bs : ℕ) (n : ℕ) (t : List ℝ) (al : ℝ)
    (sim : Simulator) (rng : RNG) :
    training initial_x td B sml bs n t al (some sim) rng =
      .ok (((trainStep td B bs al)^[n] ⟨initial_x, t, sim, rng⟩).x,
        ((trainStep td B bs al)^[n] ⟨initial_x, t, sim, rng⟩).loss_track,
        some ((trainStep td B bs al)^[n] ⟨initial_x, t, sim, rng⟩).sim,
        ((trainStep td B bs al)^[n] ⟨initial_x, t, sim, rng⟩).rng)
    ∧ ((trainStep td B bs al)^[n] ⟨initial_x, t, sim, rng⟩).loss_track.length
        = t.length + n
    ∧ ((trainStep td B bs al)^[n] ⟨initial_x, t, sim, rng⟩).sim.calls.length
        = sim.calls.length + 3 * n
    ∧ (∀ (g : RNG) (m : ℕ), ((RNG.choiceN g (m + 1) bs).1).length = bs
        ∧ ((RNG.choiceN g (m + 1) bs).1).all
            (fun j => decide (j < m + 1)) = true) := by
  refine ⟨trainingLoop_some td B bs al n initial_x t sim rng,
    iterate_loss_length td B bs al n _, iterate_calls_length td B bs al n _,
    ?_⟩
  intro g m
  refine ⟨by simp [RNG.choiceN], ?_⟩
  simp only [RNG.choiceN, List.all_eq_true, List.mem_map, List.mem_range]
  rintro b ⟨i, -, rfl⟩
  simpa using Nat.mod_lt _ (Nat.succ_pos m)

/-- C9: `training` never uses its `similator` parameter — the result is
identical for any two values of it — and reads the free global name
`simulator` instead: with that name unbound, every call with
`n_steps ≥ 1` fails with `NameError`.  When the global is bound, the
per-step `gradient` call uses `gradient`'s defaults, in particular every
sampler query of a step requests the default `1000` shots regardless of
any caller intent. -/
theorem training_free_global_simulator (initial_x : List ℝ)
    (td : List String) (B : Circuit) (sml : Simulator) (bs : ℕ) (n : ℕ)
    (t : List ℝ) (al : ℝ) (rng : RNG) :
    training initial_x td B sml bs (n + 1) t al none rng =
      .error PyError.NameError
    ∧ (∀ (sml2 : Simulator) (glob : Option Simulator),
        training initial_x td B sml bs n t al glob rng =
          training initial_x td B sml2 bs n t al glob rng)
    ∧ (∀ (s : TState),
        ((trainStep td B bs al s).sim.calls.drop s.sim.calls.length).all
          (fun c => decide (c.shots = 1000)) = true) := by
  refine ⟨rfl, fun sml2 glob => rfl, ?_⟩
  intro s
  simp [trainStep, gradient, measure_result, List.drop_left]

/-- C7: the trace is an accumulator.  (a) A call with a caller-supplied
trace `t` returns `t` with the new losses appended, so its first
`len(t)` entries are unchanged; (b) calls omitting the trace argument
share the one default list object: after a first such call the cell holds
that call's returned trace, and a second call returns that whole trace —
earlier losses included — with its own losses appended. -/
theorem training_trace_accumulates
    (x1 : List ℝ) (td1 : List String) (B1 : Circuit) (sml1 : Simulator)
    (bs1 n1 : ℕ) (t : List ℝ) (al1 : ℝ) (sim1 : Simulator) (rng1 : RNG)
    (x2 : List ℝ) (td2 : List String) (B2 : Circuit) (sml2 : Simulator)
    (bs2 n2 : ℕ) (al2 : ℝ) (sim2 : Simulator) (rng2 : RNG) :
    training x1 td1 B1 sml1 bs1 n1 t al1 (some sim1) rng1 =
      .ok (((trainStep td1 B1 bs1 al1)^[n1] ⟨x1, t, sim1, rng1⟩).x,
        t ++ ((trainStep td1 B1 bs1 al1)^[n1] ⟨x1, [], sim1, rng1⟩).loss_track,
        some ((trainStep td1 B1 bs1 al1)^[n1] ⟨x1, t, sim1, rng1⟩).sim,
        ((trainStep td1 B1 bs1 al1)^[n1] ⟨x1, t, sim1, rng1⟩).rng)
    ∧ (t ++ ((trainStep td1 B1 bs1 al1)^[n1]
          ⟨x1, [], sim1, rng1⟩).loss_track).take t.length = t
    ∧ (trainingDefaultCall t x1 td1 B1 sml1 bs1 n1 al1 (some sim1) rng1).2 =
        t ++ ((trainStep td1 B1 bs1 al1)^[n1] ⟨x1, [], sim1, rng1⟩).loss_track
    ∧ (trainingDefaultCall
          (trainingDefaultCall t x1 td1 B1 sml1 bs1 n1 al1 (some sim1) rng1).2
          x2 td2 B2 sml2 bs2 n2 al2 (some sim2) rng2).2 =
        (t ++ ((trainStep td1 B1 bs1 al1)^[n1]
            ⟨x1, [], sim1, rng1⟩).loss_track)
          ++ ((trainStep td2 B2 bs2 al2)^[n2]
            ⟨x2, [], sim2, rng2⟩).loss_track := by
  have hcell1 := trainingDefaultCall_some t x1 td1 B1 sml1 bs1 n1 al1 sim1 rng1
  refine ⟨?_, List.take_left t _, hcell1, ?_⟩
  · have h := trainingLoop_some td1 B1 bs1 al1 n1 x1 t sim1 rng1
    rw [iterate_trace_decomp td1 B1 bs1 al1 n1 x1 t sim1 rng1] at h
    rw [show training x1 td1 B1 sml1 bs1 n1 t al1 (some sim1) rng1 =
      trainingLoop td1 B1 bs1 al1 n1 x1 t (some sim1) rng1 from rfl, h]
    rw [iterate_trace_decomp td1 B1 bs1 al1 n1 x1 t sim1 rng1]
  · rw [hcell1]
    exact trainingDefaultCall_some _ x2 td2 B2 sml2 bs2 n2 al2 sim2 rng2

end

end QMLUtils
